import Mathlib

/-!
Verification model of the `sqlite-worker` single-writer execution engine
(`src/sqlite_worker/main.py`).

The Python source is shallowly embedded: pure string helpers become Lean
functions, the shared worker state (result map, completion events, request
queue, transaction flag) becomes an explicit `WState` record, and the worker
thread loop body becomes a state-transition function.  The SQLite library
itself is external to the repository; it is modelled by an abstract store
plus an environment parameter `env` giving the success/failure semantics of
user-supplied statements.  Python `uuid.uuid4().hex` is modelled by an
injective supply of fresh hexadecimal strings indexed by a counter held in
the state.
-/

set_option autoImplicit false

namespace SqliteWorker

/-- The constant `SILENT_TOKEN_SUFFIX` (the text "-silent") from the source. -/
def SILENT_TOKEN_SUFFIX : String := "-silent"

/-- Model of `uuid.uuid4().hex`: an injective supply of non-empty strings of
hexadecimal characters, indexed by the fresh-name counter of the worker.  (The
real value is 32 random hex digits; the claims only need that tokens are
hex strings, hence never end with `-silent`, and are pairwise distinct.) -/
def uuid4hex (n : Nat) : String := String.mk ('f' :: List.replicate n 'a')

/-- Token minted by `execute`: the uuid hex, with the silent suffix appended
when the caller did not ask for a result (`token += SILENT_TOKEN_SUFFIX`). -/
def mkToken (n : Nat) (silent : Bool) : String :=
  if silent then uuid4hex n ++ SILENT_TOKEN_SUFFIX else uuid4hex n

/-- `token.endswith(SILENT_TOKEN_SUFFIX)` from `_execute_query`, expressed on
the character lists of the strings. -/
def silentCheck (token : String) : Bool :=
  SILENT_TOKEN_SUFFIX.toList.isSuffixOf token.toList

/-- `_validate_identifier`: start character class `[a-zA-Z_]`. -/
def isIdentStart (c : Char) : Bool := c.isAlpha || c = '_'

/-- `_validate_identifier`: continuation character class `[a-zA-Z0-9_]`. -/
def isIdentChar (c : Char) : Bool := c.isAlphanum || c = '_'

/-- The core regular expression `[a-zA-Z_][a-zA-Z0-9_]*` on a character
list: non-empty, first character a letter or underscore, rest letters,
digits or underscores. -/
def matchesIdentCore : List Char → Bool
  | [] => false
  | c :: cs => isIdentStart c && cs.all isIdentChar

/-- The Python call `re.match` with the pattern `^[a-zA-Z_][a-zA-Z0-9_]*$`
as a Boolean.  In
the Python `re` module, `$` matches at the end of the string or just before a single
newline at the end of the string, so the accepted language is the core
production optionally followed by one trailing newline character. -/
def pyMatchIdent (s : String) : Bool :=
  matchesIdentCore s.toList ||
    (s.toList.getLast? = some '\n' && matchesIdentCore s.toList.dropLast)

/-- `_validate_identifier(identifier)`: raises `ValueError` (modelled as
`Except.error`) for the empty string or a regex mismatch, otherwise returns
the identifier unchanged. -/
def validateIdentifier (identifier : String) : Except String String :=
  if identifier = "" then
    .error "Identifier must be a non-empty string"
  else if !pyMatchIdent identifier then
    .error "Invalid identifier: must contain only alphanumeric characters and underscores, and start with a letter or underscore"
  else
    .ok identifier

/-- Modelled from the spec (for comparison with the source validator): the
production "starts with a letter or underscore, followed by letters, digits,
or underscores only", on a non-empty string. -/
def specIdentProduction (s : String) : Bool :=
  matchesIdentCore s.toList

/-! ### Python string methods

The source is Python; its `str` methods are modelled directly on the
character lists of the strings (all identifiers and statements involved are
ASCII). -/

/-- Python `str.lower()` (ASCII case mapping). -/
def pyLower (s : String) : String := String.mk (s.toList.map Char.toLower)

/-- The default whitespace stripped by Python `str.strip()`/`lstrip()`. -/
def isPySpace (c : Char) : Bool :=
  c = ' ' || c = '\t' || c = '\n' || c = '\r' || c = '\x0b' || c = '\x0c'

/-- Python `str.lstrip()`. -/
def pyLStrip (s : String) : String := String.mk (s.toList.dropWhile isPySpace)

/-- Python `str.strip()`. -/
def pyStrip (s : String) : String :=
  String.mk (((s.toList.dropWhile isPySpace).reverse.dropWhile isPySpace).reverse)

/-- Python `str.startswith(pre)`. -/
def pyStartsWith (s pre : String) : Bool := pre.toList.isPrefixOf s.toList

/-- Helper for Python `str.split(sep)` with a one-character separator. -/
def splitCharAux (sep : Char) : List Char → List (List Char)
  | [] => [[]]
  | c :: cs =>
    match splitCharAux sep cs with
    | [] => [[]]
    | g :: gs => if c = sep then [] :: g :: gs else (c :: g) :: gs

/-- Python `s.split(sep)` for a one-character separator. -/
def pySplit (sep : Char) (s : String) : List String :=
  (splitCharAux sep s.toList).map String.mk

/-- `_is_select_query`: `query.lower().lstrip().startswith("select")`. -/
def isSelectQuery (query : String) : Bool :=
  pyStartsWith (pyLStrip (pyLower query)) "select"

/-- Statement splitting in `apply_migration`:
split `up_sql` on the semicolon character, strip each piece, and keep the
non-empty results. -/
def splitStatements (sql : String) : List String :=
  ((pySplit ';' sql).map pyStrip).filter (fun s => s ≠ "")

/-! ### Python `dict` operations on association lists

The worker fields `self._results` and `self._select_events` are Python dicts;
they are modelled as association lists with insertion-order semantics and
unique keys maintained by the update operation. -/

/-- `m.get(k)` / `m.get(k, None)`. -/
def dictGet {α : Type} (m : List (String × α)) (k : String) : Option α :=
  (m.find? (fun p => p.1 == k)).map (·.2)

/-- `m[k] = v`: replace the value at an existing key, else append. -/
def dictSet {α : Type} (m : List (String × α)) (k : String) (v : α) :
    List (String × α) :=
  if (m.find? (fun p => p.1 == k)).isSome then
    m.map (fun p => if p.1 == k then (p.1, v) else p)
  else
    m ++ [(k, v)]

/-- `m.pop(k, None)`: the looked-up value, and the map without the key. -/
def dictPop {α : Type} (m : List (String × α)) (k : String) :
    Option α × List (String × α) :=
  (dictGet m k, m.filter (fun p => p.1 ≠ k))

/-- `m.setdefault(k, v)` (the state effect): insert `v` only if the key is
absent. -/
def dictSetdefault {α : Type} (m : List (String × α)) (k : String) (v : α) :
    List (String × α) :=
  if (dictGet m k).isSome then m else m ++ [(k, v)]

/-! ### Abstract model of the SQLite connection

SQLite itself is external to the repository.  The store holds the
`_migrations` ledger table (created by `_init_migration_table`) plus a trace
of successfully applied user statements; an open explicit transaction is a
saved snapshot of the store that `ROLLBACK` restores.  User statements not
recognized as one of the fixed query strings used by the engine are given
semantics by an environment `env : String → Option String` (`none` =
success, `some msg` = the statement raises `sqlite3.Error msg`). -/

/-- Contents of the database: the `_migrations` table (version, name pairs
in insertion order, `applied_at`/`id` left implicit in the order) and the
cumulative effects of user statements. -/
structure Store where
  migrations : List (String × String)
  applied : List String
deriving Repr, DecidableEq

/-- A connection: current store plus the snapshot taken by an open explicit
`BEGIN TRANSACTION` (restored by `ROLLBACK`, discarded by a commit). -/
structure DB where
  store : Store
  snapshot : Option Store
deriving Repr, DecidableEq

/-- `conn.commit()` at the Python level: makes the current state durable and
ends any open transaction; a no-op when no transaction is open. -/
def DB.pyCommit (db : DB) : DB := { db with snapshot := none }

/-- A result row is a list of column values (all values modelled as
strings). -/
abbrev Row := List String

/-- Execute one SQL statement against the connection.  The fixed query
strings issued by the engine itself (`_migrations` ledger access and
transaction control) are interpreted directly; anything else is a user
statement judged by `env`. -/
def DB.exec (env : String → Option String) (q : String) (vals : List String)
    (db : DB) : Except String (List Row × DB) :=
  if q = "SELECT version FROM _migrations WHERE version = ?" then
    match vals with
    | [v] => .ok ((db.store.migrations.filter (fun p => p.1 = v)).map
        (fun p => [p.1]), db)
    | _ => .error "Incorrect number of bindings supplied"
  else if q = "INSERT INTO _migrations (version, name) VALUES (?, ?)" then
    match vals with
    | [v, n] =>
      if (db.store.migrations.map (·.1)).contains v then
        .error "UNIQUE constraint failed: _migrations.version"
      else
        .ok ([], { db with store :=
          { db.store with migrations := db.store.migrations ++ [(v, n)] } })
    | _ => .error "Incorrect number of bindings supplied"
  else if q = "BEGIN TRANSACTION" then
    if db.snapshot.isSome then
      .error "cannot start a transaction within a transaction"
    else .ok ([], { db with snapshot := some db.store })
  else if q = "COMMIT" then
    if db.snapshot.isSome then .ok ([], { db with snapshot := none })
    else .error "cannot commit - no transaction is active"
  else if q = "ROLLBACK" then
    match db.snapshot with
    | some st => .ok ([], { store := st, snapshot := none })
    | none => .error "cannot rollback - no transaction is active"
  else
    match env q with
    | none => .ok ([], { db with store :=
        { db.store with applied := db.store.applied ++ [q] } })
    | some e => .error e

/-! ### Worker state -/

/-- A stored result value: the rows from `cursor.fetchall()`, or the
captured `sqlite3.Error` (kept as its message). -/
inductive QVal where
  | rows (r : List Row)
  | err (e : String)
deriving Repr, DecidableEq

/-- One entry of `self._sql_queue`: the `(token, query, values)` triple.
`close` enqueues `(None, None, None)`, hence the `Option` query. -/
structure Request where
  token : String
  query : Option String
  values : List String
deriving Repr, DecidableEq

/-- A registered hook callback.  Its only observable interactions with the
engine are being invoked (recorded in the event trace) and possibly raising
(`raisesOn`); the raised exception is caught by `_trigger_hooks`. -/
structure HookCb where
  name : String
  raisesOn : String → List String → Bool

/-- The shared state of a `SqliteWorker` instance, together with the model
of its connection.  `uuidSupply` is the fresh-name counter backing
`uuid.uuid4().hex`; `count`/`maxCount` are the worker loop commit-batch
counter and `self.max_count`. -/
structure WState where
  db : DB
  queue : List Request
  results : List (String × QVal)
  selectEvents : List (String × Bool)
  inTransaction : Bool
  closed : Bool
  queryHooks : List (String × List HookCb)
  uuidSupply : Nat
  count : Nat
  maxCount : Nat

/-- Events observable while the worker processes one request, used to state
ordering properties: the statement was handed to `cursor.execute`, a hook
was invoked (`ok = false` when it raised and was caught/logged), a value was
stored in `self._results`, the completion event was set. -/
inductive Ev where
  | executed (q : String)
  | hookCalled (name : String) (ok : Bool)
  | resultStored (token : String)
  | signaled (token : String)
deriving Repr, DecidableEq

/-- `_notify_query_begin`: `self._select_events.setdefault(token,
threading.Event())` — an event is unset (`false`) when created. -/
def notifyQueryBegin (token : String) (s : WState) : WState :=
  { s with selectEvents := dictSetdefault s.selectEvents token false }

/-- `_notify_query_done`: `event = self._select_events.get(token); if event:
event.set()` — sets the event if it exists, silently does nothing
otherwise.  Returns the signal event for the trace. -/
def notifyQueryDone (token : String) (s : WState) : WState × List Ev :=
  if (dictGet s.selectEvents token).isSome then
    let ev' := s.selectEvents.map (fun p => if p.1 == token then (p.1, true) else p)
    ({ s with selectEvents := ev' }, [Ev.signaled token])
  else (s, [])

/-- `_handle_query_error`: `self._results[token] = err` (no silent-token
check on this path). -/
def handleQueryError (token : String) (e : String) (s : WState) : WState :=
  { s with results := dictSet s.results token (.err e) }

/-- `_trigger_hooks(query, values)`: collect `on_query` hooks plus the hooks
for the statement kind derived from the leading keyword, then invoke each;
a raising hook is caught and logged (`ok = false`) and the remaining hooks
still run. -/
def triggerHooks (hooksMap : List (String × List HookCb)) (query : String)
    (vals : List String) : List Ev :=
  let base := (dictGet hooksMap "on_query").getD []
  let ql := pyLStrip (pyLower query)
  let extra :=
    if pyStartsWith ql "insert" then (dictGet hooksMap "on_insert").getD []
    else if pyStartsWith ql "update" then (dictGet hooksMap "on_update").getD []
    else if pyStartsWith ql "delete" then (dictGet hooksMap "on_delete").getD []
    else if pyStartsWith ql "select" then (dictGet hooksMap "on_select").getD []
    else []
  (base ++ extra).map (fun h => Ev.hookCalled h.name (!h.raisesOn query vals))

/-- `_execute_query(cursor, token, query, values)`: execute the statement;
on success trigger hooks and, for a non-silent token, store the fetched
rows; on `sqlite3.Error` capture the error via `_handle_query_error`;
in either case finish with `_notify_query_done`. -/
def execQuery (env : String → Option String) (token : String) (query : String)
    (vals : List String) (s : WState) : WState × List Ev :=
  match DB.exec env query vals s.db with
  | .ok (rows, db') =>
    let hookEvs := triggerHooks s.queryHooks query vals
    let s1 : WState := { s with db := db' }
    let stored : WState × List Ev :=
      if !silentCheck token then
        ({ s1 with results := dictSet s1.results token (.rows rows) },
          [Ev.resultStored token])
      else (s1, ([] : List Ev))
    let signaled := notifyQueryDone token stored.1
    (signaled.1, Ev.executed query :: hookEvs ++ stored.2 ++ signaled.2)
  | .error e =>
    let s1 := handleQueryError token e s
    let signaled := notifyQueryDone token s1
    (signaled.1, Ev.executed query :: Ev.resultStored token :: signaled.2)

/-- One iteration of the worker loop body after the dequeue (`token, query,
values = self._sql_queue.get()` has already removed `r` from the queue):
`if query:` execute it (with the statement counter bumped), then auto-commit
when not in a transaction and either the batch threshold was reached or the
queue is momentarily empty. -/
def workerBody (env : String → Option String) (r : Request) (s : WState) :
    WState × List Ev :=
  let step : WState × List Ev :=
    match r.query with
    | some q =>
      if q = "" then (s, ([] : List Ev))
      else execQuery env r.token q r.values { s with count := s.count + 1 }
    | none => (s, ([] : List Ev))
  let s1 := step.1
  let s2 :=
    if !s1.inTransaction && (decide (s1.count ≥ s1.maxCount) || s1.queue.isEmpty)
    then { s1 with db := s1.db.pyCommit, count := 0 }
    else s1
  (s2, step.2)

/-- Drain the queue: repeatedly dequeue and run the loop body until the
queue is empty.  Fuel-indexed so the recursion is structural; `runQueue`
supplies exactly the queue length, which suffices because the loop body
never enqueues. -/
def runQueueAux (env : String → Option String) : Nat → WState → WState × List Ev
  | 0, s => (s, [])
  | fuel + 1, s =>
    match s.queue with
    | [] => (s, [])
    | r :: rest =>
      let step := workerBody env r { s with queue := rest }
      let next := runQueueAux env fuel step.1
      (next.1, step.2 ++ next.2)

/-- The worker thread catching up with every pending request (the canonical
schedule between a producer action and the next observation). -/
def runQueue (env : String → Option String) (s : WState) : WState × List Ev :=
  runQueueAux env s.queue.length s

/-! ### Producer-side API -/

/-- The first half of `execute`, up to and including
`self._sql_queue.put((token, query, values or []), timeout=5)`: compute
whether a token is returned, mint the token, and enqueue the request.  The
completion event does **not** exist yet at this point; `execute` creates it
with `_notify_query_begin` only after the `put`. -/
def executeEnqueue (query : String) (vals : List String)
    (alwaysReturnToken : Bool) (s : WState) : (String × Bool) × WState :=
  let shouldReturnToken := alwaysReturnToken || isSelectQuery query
  let token := mkToken s.uuidSupply (!shouldReturnToken)
  ((token, shouldReturnToken),
    { s with uuidSupply := s.uuidSupply + 1,
             queue := s.queue ++ [⟨token, some query, vals⟩] })

/-- `execute(query, values=None, always_return_token=False)`: raises
`RuntimeError` when closed; otherwise enqueue, then create the completion
event, and return the token only when the caller asked for one (select
queries always do). -/
def execute (query : String) (vals : List String) (alwaysReturnToken : Bool)
    (s : WState) : Except String (Option String × WState) :=
  if s.closed then .error "Worker is closed"
  else
    let er := executeEnqueue query vals alwaysReturnToken s
    let s2 := notifyQueryBegin er.1.1 er.2
    .ok (if er.1.2 then some er.1.1 else none, s2)

/-- The observable outcome of `fetch_results`: either the call returns a
value (with the post-call state), or it is stuck in `event.wait()` on an
event that is not set. -/
inductive FetchOutcome where
  | returned (v : Option QVal) (s : WState)
  | blocked

/-- `fetch_results(token)`: `None` token returns immediately; an unknown
token (no event) returns immediately with no result; otherwise wait on the
event and `self._results.pop(token, None)`. -/
def fetch_results (token : Option String) (s : WState) : FetchOutcome :=
  match token with
  | none => .returned none s
  | some tok =>
    match dictGet s.selectEvents tok with
    | none => .returned none s
    | some isSet =>
      if isSet then
        let (v, rest) := dictPop s.results tok
        .returned v { s with results := rest }
      else .blocked

/-! ### Transactions

The methods return the post-call state together with the raised exception,
if any (`none` = normal return); a Python `raise` leaves whatever state
mutations already happened in place. -/

/-- `begin_transaction`: raise if a transaction is in progress, otherwise
set the flag and enqueue `BEGIN TRANSACTION` through `execute`.  The flag is
set before the `execute` call, as in the source. -/
def begin_transaction (s : WState) : WState × Option String :=
  if s.inTransaction then (s, some "Transaction already in progress")
  else
    let s1 := { s with inTransaction := true }
    match execute "BEGIN TRANSACTION" [] false s1 with
    | .ok (_, s2) => (s2, none)
    | .error e => (s1, some e)

/-- `commit_transaction`: raise if no transaction is in progress, otherwise
enqueue `COMMIT` through `execute` and clear the flag.  Note it does not
wait for the `COMMIT` statement to be processed. -/
def commit_transaction (s : WState) : WState × Option String :=
  if !s.inTransaction then (s, some "No transaction in progress")
  else
    match execute "COMMIT" [] false s with
    | .ok (_, s1) => ({ s1 with inTransaction := false }, none)
    | .error e => (s, some e)

/-- `rollback_transaction`: raise if no transaction is in progress,
otherwise enqueue `ROLLBACK` through `execute` and clear the flag. -/
def rollback_transaction (s : WState) : WState × Option String :=
  if !s.inTransaction then (s, some "No transaction in progress")
  else
    match execute "ROLLBACK" [] false s with
    | .ok (_, s1) => ({ s1 with inTransaction := false }, none)
    | .error e => (s, some e)

/-- `TransactionContext` used via `with worker.transaction():` — the body is
a state transformer returning its final state and the exception it raised,
if any.  `__enter__` begins the transaction; `__exit__` commits on normal
exit and rolls back then re-raises on abnormal exit (an exception raised by
`__exit__` itself replaces the original one, per Python semantics). -/
def transactionContext (body : WState → WState × Option String) (s : WState) :
    WState × Option String :=
  match begin_transaction s with
  | (s1, some e) => (s1, some e)
  | (s1, none) =>
    match body s1 with
    | (s2, none) => commit_transaction s2
    | (s2, some e) =>
      match rollback_transaction s2 with
      | (s3, none) => (s3, some e)
      | (s3, some e2) => (s3, some e2)

/-! ### Migrations

`apply_migration` runs on a caller thread; between each submission and the
next observation the worker thread is given time to drain the queue (the
canonical schedule — `runQueue` below each `execute`).  `fetch_results`
returning `.blocked` cannot occur under this schedule; that branch is mapped
to an artificial exception so the function stays total. -/

/-- The check `if results and len(results) > 0` in `apply_migration`.
`results` is `None` (falsy), a row list, or a captured `sqlite3.Error`
object; an error object is truthy and `len()` on it raises `TypeError`. -/
inductive AppliedCheck where
  | alreadyApplied
  | notApplied
  | raises (e : String)

/-- Truthiness-plus-`len` dispatch on the fetched value. -/
def appliedCheck (v : Option QVal) : AppliedCheck :=
  match v with
  | none => .notApplied
  | some (.rows r) => if r.isEmpty then .notApplied else .alreadyApplied
  | some (.err _) => .raises "TypeError: object of type Error has no len()"

/-- One submission under the canonical schedule: `execute`, the worker
drains the queue, and `fetch_results` on the returned token (a silent
submission returns no token and `fetch_results(None)` returns at once,
matching the `if token:` guards in the source). -/
def submitAndWait (env : String → Option String) (q : String)
    (vals : List String) (art : Bool) (s : WState) :
    Except String (Option QVal × WState) :=
  match execute q vals art s with
  | .error e => .error e
  | .ok (tokenOpt, s1) =>
    let s2 := (runQueue env s1).1
    match fetch_results tokenOpt s2 with
    | .blocked => .error "UNREACHABLE: fetch blocked"
    | .returned v s3 => .ok (v, s3)

/-- The statement loop of `apply_migration`: for each statement,
`token = self.execute(statement)`, the worker drains, and `if token:
self.fetch_results(token)` (the fetched value is discarded).  Returns the
state and the exception, if one was raised by `execute`. -/
def runMigrationStatements (env : String → Option String) :
    List String → WState → WState × Option String
  | [], s => (s, none)
  | stmt :: rest, s =>
    match submitAndWait env stmt [] false s with
    | .error e => (s, some e)
    | .ok (_, s3) => runMigrationStatements env rest s3

/-- `apply_migration(version, name, up_sql)`: check the ledger; if the
version is recorded return `False`; otherwise begin a transaction, run the
split statements, insert the ledger row, commit, and return `True`; on an
exception raised anywhere in that `try` block, roll back and re-raise. -/
def apply_migration (env : String → Option String) (version name up_sql : String)
    (s : WState) : WState × Except String Bool :=
  match submitAndWait env "SELECT version FROM _migrations WHERE version = ?"
      [version] false s with
  | .error e => (s, .error e)
  | .ok (v, s3) =>
    match appliedCheck v with
    | .alreadyApplied => (s3, .ok false)
    | .raises e => (s3, .error e)
    | .notApplied =>
      -- the try block: begin; statements; ledger insert; commit
      let tryResult : WState × Option String :=
        match begin_transaction s3 with
        | (s4, some e) => (s4, some e)
        | (s4, none) =>
          let s5 := (runQueue env s4).1
          match runMigrationStatements env (splitStatements up_sql) s5 with
          | (s6, some e) => (s6, some e)
          | (s6, none) =>
            match submitAndWait env
                "INSERT INTO _migrations (version, name) VALUES (?, ?)"
                [version, name] false s6 with
            | .error e => (s6, some e)
            | .ok (_, s9) =>
              match commit_transaction s9 with
              | (s10, some e) => (s10, some e)
              | (s10, none) => ((runQueue env s10).1, none)
      match tryResult with
      | (sf, none) => (sf, .ok true)
      | (sf, some e) =>
        -- except: rollback_transaction(); raise
        match rollback_transaction sf with
        | (sr, none) => (sr, .error e)
        | (sr, some e2) => (sr, .error e2)

/-- A freshly constructed worker over an empty database: empty queue, empty
result and event maps, no transaction, no hooks, default `max_count = 50`. -/
def cleanState : WState :=
  { db := { store := { migrations := [], applied := [] }, snapshot := none },
    queue := [], results := [], selectEvents := [],
    inTransaction := false, closed := false, queryHooks := [],
    uuidSupply := 0, count := 0, maxCount := 50 }

/-- Environment in which every user statement succeeds. -/
def envOk : String → Option String := fun _ => none

/-- The statements handed to `cursor.execute`, in order, extracted from an
event trace. -/
def execOrder (tr : List Ev) : List String :=
  tr.filterMap (fun e => match e with | .executed q => some q | _ => none)

/-- The non-empty statements currently waiting in the request queue, in FIFO
order (the `if query:` guard skips `None` and empty statements). -/
def queuedStatements (s : WState) : List String :=
  s.queue.filterMap (fun r =>
    match r.query with
    | some q => if q = "" then none else some q
    | none => none)

/-- A statement that is none of the fixed query strings interpreted
specially by the `DB.exec` model. -/
def isUserStmt (q : String) : Bool :=
  q ≠ "SELECT version FROM _migrations WHERE version = ?" &&
  q ≠ "INSERT INTO _migrations (version, name) VALUES (?, ?)" &&
  q ≠ "BEGIN TRANSACTION" && q ≠ "COMMIT" && q ≠ "ROLLBACK"

/-- Every key of the completion-event map is a token minted by an earlier
`execute` call: of the form `mkToken j b` with `j` below the current
fresh-name counter. -/
def EventsFresh (s : WState) : Prop :=
  ∀ p ∈ s.selectEvents, ∃ j b, p.1 = mkToken j b ∧ j < s.uuidSupply

/-- A worker at rest between public calls: nothing queued, not shut down,
no open transaction, no unconsumed results, no open connection-level
transaction, and every recorded completion event belongs to a previously
minted token. -/
def CleanIdle (s : WState) : Prop :=
  s.queue = [] ∧ s.closed = false ∧ s.inTransaction = false
    ∧ s.results = [] ∧ s.db.snapshot = none ∧ EventsFresh s

/-- A migration statement of the benign kind used to state idempotency:
not one of the fixed query strings of the engine itself, not a select (so its
submission is silent), and accepted by the statement environment. -/
def UserStmtOk (env : String → Option String) (q : String) : Prop :=
  isUserStmt q = true ∧ env q = none ∧ isSelectQuery q = false

/-- Effect of a successful user statement on the connection model. -/
def userDB (db : DB) (q : String) : DB :=
  { db with store := { db.store with applied := db.store.applied ++ [q] } }

/-! ### Token and dictionary lemmas -/

theorem uuid4hex_toList (n : Nat) :
    (uuid4hex n).toList = 'f' :: List.replicate n 'a' := rfl

theorem mkToken_true (n : Nat) :
    mkToken n true = uuid4hex n ++ SILENT_TOKEN_SUFFIX := rfl

theorem mkToken_false (n : Nat) : mkToken n false = uuid4hex n := rfl

theorem silentCheck_mkToken (n : Nat) (b : Bool) :
    silentCheck (mkToken n b) = b := by
  cases b with
  | true =>
    rw [mkToken_true]
    simp only [silentCheck]
    rw [List.isSuffixOf_iff_suffix]
    have h : (uuid4hex n ++ SILENT_TOKEN_SUFFIX).toList
        = (uuid4hex n).toList ++ SILENT_TOKEN_SUFFIX.toList := by
      simp [String.toList, String.data_append]
    rw [h]
    exact List.suffix_append _ _
  | false =>
    rw [mkToken_false]
    simp only [silentCheck]
    rw [Bool.eq_false_iff]
    intro h
    rw [List.isSuffixOf_iff_suffix] at h
    have hmem : '-' ∈ (uuid4hex n).toList :=
      h.subset (by decide)
    rw [uuid4hex_toList] at hmem
    rcases List.mem_cons.mp hmem with h1 | h2
    · exact absurd h1 (by decide)
    · exact absurd (List.eq_of_mem_replicate h2) (by decide)

theorem mkToken_length (n : Nat) (b : Bool) :
    (mkToken n b).length = n + 1 + (if b then 7 else 0) := by
  cases b <;> simp [mkToken, uuid4hex, String.length_append]
  rfl

theorem mkToken_inj {j n : Nat} {b c : Bool} (h : mkToken j b = mkToken n c) :
    j = n ∧ b = c := by
  have hbc : b = c := by
    have := congrArg silentCheck h
    simpa [silentCheck_mkToken] using this
  subst hbc
  refine ⟨?_, rfl⟩
  have := congrArg String.length h
  rw [mkToken_length, mkToken_length] at this
  omega

theorem mkToken_ne {j n : Nat} (b c : Bool) (h : j ≠ n) :
    mkToken j b ≠ mkToken n c := by
  intro he
  exact h (mkToken_inj he).1

theorem dictGet_nil {α : Type} (k : String) :
    dictGet ([] : List (String × α)) k = none := rfl

theorem dictGet_append {α : Type} (m m' : List (String × α)) (k : String) :
    dictGet (m ++ m') k = (dictGet m k).or (dictGet m' k) := by
  simp only [dictGet, List.find?_append]
  cases m.find? (fun p => p.1 == k) <;> simp

theorem dictGet_cons {α : Type} (k' : String) (v : α) (t : List (String × α))
    (k : String) :
    dictGet ((k', v) :: t) k = if k' = k then some v else dictGet t k := by
  by_cases h : k' = k
  · simp only [dictGet]
    rw [List.find?_cons_of_pos _ (by simpa using h)]
    simp [h]
  · simp only [dictGet]
    rw [List.find?_cons_of_neg _ (by simpa using h)]
    simp [h]

theorem dictGet_single {α : Type} (k : String) (v : α) :
    dictGet [(k, v)] k = some v := by
  simp [dictGet_cons]

theorem dictGet_single_ne {α : Type} {k k' : String} (v : α) (h : k' ≠ k) :
    dictGet [(k, v)] k' = none := by
  rw [dictGet_cons, if_neg (Ne.symm h)]
  rfl

theorem dictGet_map_setv {α : Type} (m : List (String × α)) (k : String) (v : α) :
    dictGet (m.map (fun p => if p.1 == k then (p.1, v) else p)) k
      = (dictGet m k).map (fun _ => v) := by
  induction m with
  | nil => rfl
  | cons p t ih =>
    obtain ⟨pk, pv⟩ := p
    by_cases hp : pk = k
    · simp [dictGet_cons, hp]
    · simp only [List.map_cons]
      rw [if_neg (show ¬((pk, pv).1 == k) = true by simpa using hp)]
      simp only [dictGet_cons, if_neg hp, ih]

theorem dictGet_map_setv_ne {α : Type} (m : List (String × α)) {k k' : String}
    (v : α) (h : k' ≠ k) :
    dictGet (m.map (fun p => if p.1 == k then (p.1, v) else p)) k'
      = dictGet m k' := by
  induction m with
  | nil => rfl
  | cons p t ih =>
    obtain ⟨pk, pv⟩ := p
    by_cases hp : pk = k
    · subst hp
      simp only [List.map_cons]
      rw [if_pos (show ((pk, pv).1 == pk) = true by simp)]
      simp only [dictGet_cons, if_neg (show pk ≠ k' from fun e => h e.symm), ih]
    · simp only [List.map_cons]
      rw [if_neg (show ¬((pk, pv).1 == k) = true by simpa using hp)]
      simp only [dictGet_cons, ih]

theorem dictGet_map_setv_eq {α : Type} (m : List (String × α)) (k : String)
    (v : α) :
    dictGet (m.map (fun p => if p.1 = k then (p.1, v) else p)) k
      = (dictGet m k).map (fun _ => v) := by
  rw [show (fun (p : String × α) => if p.1 = k then (p.1, v) else p)
      = (fun (p : String × α) => if p.1 == k then (p.1, v) else p) from
    funext fun p => by by_cases h : p.1 = k <;> simp [h]]
  exact dictGet_map_setv m k v

theorem dictGet_isSome_find {α : Type} (m : List (String × α)) (k : String) :
    (m.find? (fun p => p.1 == k)).isSome = (dictGet m k).isSome := by
  simp [dictGet]

theorem dictSet_of_get_none {α : Type} {m : List (String × α)} {k : String}
    (v : α) (h : dictGet m k = none) : dictSet m k v = m ++ [(k, v)] := by
  simp only [dictSet, dictGet_isSome_find, h]
  rfl

theorem dictSet_of_get_some {α : Type} {m : List (String × α)} {k : String}
    {w : α} (v : α) (h : dictGet m k = some w) :
    dictSet m k v = m.map (fun p => if p.1 == k then (p.1, v) else p) := by
  simp only [dictSet, dictGet_isSome_find, h]
  rfl

theorem dictGet_dictSet_self {α : Type} (m : List (String × α)) (k : String)
    (v : α) : dictGet (dictSet m k v) k = some v := by
  cases h : dictGet m k with
  | none =>
    rw [dictSet_of_get_none v h, dictGet_append, h]
    simp [dictGet_single]
  | some w =>
    rw [dictSet_of_get_some v h, dictGet_map_setv, h]
    rfl

theorem dictSetdefault_of_none {α : Type} {m : List (String × α)} {k : String}
    (v : α) (h : dictGet m k = none) : dictSetdefault m k v = m ++ [(k, v)] := by
  simp [dictSetdefault, h]

theorem dictSetdefault_of_some {α : Type} {m : List (String × α)} {k : String}
    {w : α} (v : α) (h : dictGet m k = some w) : dictSetdefault m k v = m := by
  simp [dictSetdefault, h]

theorem dictGet_filter_ne_self {α : Type} (m : List (String × α)) (k : String) :
    dictGet (m.filter (fun p => p.1 ≠ k)) k = none := by
  simp only [dictGet, Option.map_eq_none']
  rw [List.find?_eq_none]
  intro p hp
  have := (List.mem_filter.mp hp).2
  simp at this ⊢
  exact this

theorem filter_ne_of_get_none {α : Type} {m : List (String × α)} {k : String}
    (h : dictGet m k = none) : m.filter (fun p => p.1 ≠ k) = m := by
  rw [List.filter_eq_self]
  intro p hp
  simp only [dictGet, Option.map_eq_none'] at h
  rw [List.find?_eq_none] at h
  have := h p hp
  simpa using this

/-! ### Frame lemmas and FIFO processing order -/

theorem execQuery_frame (env : String → Option String) (tok q : String)
    (vals : List String) (s : WState) :
    (execQuery env tok q vals s).1.queue = s.queue
    ∧ (execQuery env tok q vals s).1.closed = s.closed
    ∧ (execQuery env tok q vals s).1.inTransaction = s.inTransaction
    ∧ (execQuery env tok q vals s).1.uuidSupply = s.uuidSupply
    ∧ (execQuery env tok q vals s).1.count = s.count
    ∧ (execQuery env tok q vals s).1.maxCount = s.maxCount
    ∧ (execQuery env tok q vals s).1.queryHooks = s.queryHooks := by
  unfold execQuery notifyQueryDone handleQueryError
  cases hx : DB.exec env q vals s.db with
  | ok res =>
    obtain ⟨rows, db'⟩ := res
    dsimp only
    split <;> (split <;> exact ⟨rfl, rfl, rfl, rfl, rfl, rfl, rfl⟩)
  | error e =>
    dsimp only
    split <;> exact ⟨rfl, rfl, rfl, rfl, rfl, rfl, rfl⟩

theorem workerBody_queue (env : String → Option String) (r : Request)
    (s : WState) : (workerBody env r s).1.queue = s.queue := by
  obtain ⟨rtok, rq, rvals⟩ := r
  cases rq with
  | none =>
    unfold workerBody
    dsimp only
    split <;> rfl
  | some q =>
    unfold workerBody
    dsimp only
    by_cases hq : q = ""
    · rw [if_pos hq]
      dsimp only
      split <;> rfl
    · rw [if_neg hq]
      have h := (execQuery_frame env rtok q rvals { s with count := s.count + 1 }).1
      split <;> simpa using h

theorem execOrder_nil : execOrder [] = [] := rfl

theorem execOrder_append (t t' : List Ev) :
    execOrder (t ++ t') = execOrder t ++ execOrder t' := by
  simp [execOrder, List.filterMap_append]

theorem execOrder_triggerHooks (hooksMap : List (String × List HookCb))
    (q : String) (vals : List String) :
    execOrder (triggerHooks hooksMap q vals) = [] := by
  unfold execOrder triggerHooks
  rw [List.filterMap_map]
  rw [List.filterMap_eq_nil_iff]
  intro a _
  rfl

theorem execOrder_execQuery (env : String → Option String) (tok q : String)
    (vals : List String) (s : WState) :
    execOrder (execQuery env tok q vals s).2 = [q] := by
  have ht := execOrder_triggerHooks s.queryHooks q vals
  simp only [execOrder] at ht
  unfold execQuery notifyQueryDone
  cases hx : DB.exec env q vals s.db with
  | ok res =>
    obtain ⟨rows, db'⟩ := res
    dsimp only
    split <;> split <;>
      simp [execOrder, List.filterMap_cons, List.filterMap_append, ht]
  | error e =>
    dsimp only
    split <;> simp [execOrder, List.filterMap_cons]

theorem workerBody_execOrder (env : String → Option String) (r : Request)
    (s : WState) :
    execOrder (workerBody env r s).2
      = (match r.query with
         | some q => if q = "" then [] else [q]
         | none => []) := by
  obtain ⟨rtok, rq, rvals⟩ := r
  cases rq with
  | none =>
    unfold workerBody
    dsimp only
    rfl
  | some q =>
    unfold workerBody
    dsimp only
    by_cases hq : q = ""
    · rw [if_pos hq, if_pos hq]
      rfl
    · rw [if_neg hq, if_neg hq]
      exact execOrder_execQuery env rtok q rvals { s with count := s.count + 1 }

theorem runQueueAux_execOrder (env : String → Option String) :
    ∀ fuel : Nat, ∀ s : WState, s.queue.length ≤ fuel →
      execOrder (runQueueAux env fuel s).2 = queuedStatements s := by
  intro fuel
  induction fuel with
  | zero =>
    intro s h
    have : s.queue = [] := List.length_eq_zero.mp (Nat.le_zero.mp h)
    simp [runQueueAux, queuedStatements, this, execOrder]
  | succ n ih =>
    intro s h
    cases hq : s.queue with
    | nil => simp [runQueueAux, hq, queuedStatements, execOrder]
    | cons r rest =>
      have hlen : rest.length ≤ n := by
        rw [hq] at h
        simpa using h
      have hbq := workerBody_queue env r { s with queue := rest }
      have hbo := workerBody_execOrder env r { s with queue := rest }
      have hih := ih (workerBody env r { s with queue := rest }).1
        (by rw [hbq]; exact hlen)
      simp only [runQueueAux, hq]
      rcases hwb : workerBody env r { s with queue := rest } with ⟨s1, evs⟩
      rw [hwb] at hbq hbo hih
      rcases hra : runQueueAux env n s1 with ⟨s2, evs2⟩
      rw [hra] at hih
      dsimp only at hbq hbo hih ⊢
      rw [execOrder_append, hbo, hih]
      have h1 : queuedStatements s1 = rest.filterMap (fun r =>
          match r.query with
          | some q => if q = "" then none else some q
          | none => none) := by
        unfold queuedStatements
        rw [hbq]
      have h2 : queuedStatements s = (r :: rest).filterMap (fun r =>
          match r.query with
          | some q => if q = "" then none else some q
          | none => none) := by
        unfold queuedStatements
        rw [hq]
      rw [h1, h2, List.filterMap_cons]
      cases hrq : r.query with
      | none => simp
      | some q =>
        by_cases hq0 : q = "" <;> simp [hq0]

theorem runQueue_execOrder (env : String → Option String) (s : WState) :
    execOrder (runQueue env s).2 = queuedStatements s :=
  runQueueAux_execOrder env s.queue.length s le_rfl

/-! ### Characterizations of the producer-side calls -/

theorem execute_spec (q : String) (vals : List String) (art : Bool)
    (s : WState) (hcl : s.closed = false) :
    execute q vals art s = .ok
      (if art || isSelectQuery q
        then some (mkToken s.uuidSupply (!(art || isSelectQuery q))) else none,
       { s with uuidSupply := s.uuidSupply + 1,
                queue := s.queue ++
                  [⟨mkToken s.uuidSupply (!(art || isSelectQuery q)), some q, vals⟩],
                selectEvents := dictSetdefault s.selectEvents
                  (mkToken s.uuidSupply (!(art || isSelectQuery q))) false }) := by
  simp only [execute, hcl, Bool.false_eq_true, if_false, executeEnqueue,
    notifyQueryBegin]

theorem execute_silent_spec (q : String) (vals : List String) (s : WState)
    (hcl : s.closed = false) (hsel : isSelectQuery q = false) :
    execute q vals false s = .ok
      (none,
       { s with uuidSupply := s.uuidSupply + 1,
                queue := s.queue ++ [⟨mkToken s.uuidSupply true, some q, vals⟩],
                selectEvents := dictSetdefault s.selectEvents
                  (mkToken s.uuidSupply true) false }) := by
  have h := execute_spec q vals false s hcl
  simpa [hsel] using h

theorem begin_transaction_spec (s : WState) (h : s.inTransaction = false)
    (hcl : s.closed = false) :
    begin_transaction s
      = ({ s with
             inTransaction := true,
             uuidSupply := s.uuidSupply + 1,
             queue := s.queue ++
               [⟨mkToken s.uuidSupply true, some "BEGIN TRANSACTION", []⟩],
             selectEvents := dictSetdefault s.selectEvents
               (mkToken s.uuidSupply true) false }, none) := by
  have hex := execute_silent_spec "BEGIN TRANSACTION" []
    { s with inTransaction := true } hcl rfl
  simp only [begin_transaction, h, if_false, Bool.false_eq_true, hex]

theorem commit_transaction_spec (s : WState) (h : s.inTransaction = true)
    (hcl : s.closed = false) :
    commit_transaction s
      = ({ s with
             inTransaction := false,
             uuidSupply := s.uuidSupply + 1,
             queue := s.queue ++ [⟨mkToken s.uuidSupply true, some "COMMIT", []⟩],
             selectEvents := dictSetdefault s.selectEvents
               (mkToken s.uuidSupply true) false }, none) := by
  have hex := execute_silent_spec "COMMIT" [] s hcl rfl
  simp only [commit_transaction, h, Bool.not_true, Bool.false_eq_true,
    if_false, hex]

theorem rollback_transaction_spec (s : WState) (h : s.inTransaction = true)
    (hcl : s.closed = false) :
    rollback_transaction s
      = ({ s with
             inTransaction := false,
             uuidSupply := s.uuidSupply + 1,
             queue := s.queue ++ [⟨mkToken s.uuidSupply true, some "ROLLBACK", []⟩],
             selectEvents := dictSetdefault s.selectEvents
               (mkToken s.uuidSupply true) false }, none) := by
  have hex := execute_silent_spec "ROLLBACK" [] s hcl rfl
  simp only [rollback_transaction, h, Bool.not_true, Bool.false_eq_true,
    if_false, hex]

/-! ### Single-round processing lemmas for the migration scenarios -/

theorem pyCommit_of_none {db : DB} (h : db.snapshot = none) :
    db.pyCommit = db := by
  cases db
  simp_all [DB.pyCommit]

theorem fresh_get_none {s : WState} (hfresh : EventsFresh s) {n : Nat}
    (hn : s.uuidSupply ≤ n) (b : Bool) :
    dictGet s.selectEvents (mkToken n b) = none := by
  simp only [dictGet, Option.map_eq_none']
  rw [List.find?_eq_none]
  intro p hp
  obtain ⟨j, b', hpk, hj⟩ := hfresh p hp
  simp only [beq_iff_eq, hpk]
  exact mkToken_ne b' b (by omega)

theorem map_setv_id {α : Type} {m : List (String × α)} {k : String} (v : α)
    (h : dictGet m k = none) :
    m.map (fun p => if p.1 == k then (p.1, v) else p) = m := by
  induction m with
  | nil => rfl
  | cons p t ih =>
    rw [dictGet_cons] at h
    by_cases hp : p.1 = k
    · rw [if_pos hp] at h
      exact absurd h (by simp)
    · rw [if_neg hp] at h
      simp only [List.map_cons,
        if_neg (show ¬(p.1 == k) = true by simpa using hp), ih h]

theorem runQueue_one_state (env : String → Option String) (r : Request)
    (s : WState) (hqueue : s.queue = [r]) :
    (runQueue env s).1 = (workerBody env r { s with queue := [] }).1 := by
  unfold runQueue
  rw [hqueue]
  simp only [List.length_cons, List.length_nil]
  unfold runQueueAux
  rw [hqueue]
  dsimp only
  rfl

theorem DB.exec_user {env : String → Option String} {q : String}
    (vals : List String) (db : DB) (hu : isUserStmt q = true)
    (he : env q = none) :
    DB.exec env q vals db = .ok ([], userDB db q) := by
  simp only [isUserStmt, Bool.and_eq_true, decide_eq_true_eq] at hu
  obtain ⟨⟨⟨⟨h1, h2⟩, h3⟩, h4⟩, h5⟩ := hu
  simp only [DB.exec, if_neg h1, if_neg h2, if_neg h3, if_neg h4, if_neg h5,
    he, userDB]

theorem execQuery_ok_state (env : String → Option String) (tok q : String)
    (vals : List String) (s : WState) (rows : List Row) (db' : DB)
    (hex : DB.exec env q vals s.db = .ok (rows, db'))
    (hev : (dictGet s.selectEvents tok).isSome = true) :
    (execQuery env tok q vals s).1
      = { s with
            db := db',
            results := if !silentCheck tok
              then dictSet s.results tok (.rows rows) else s.results,
            selectEvents := s.selectEvents.map
              (fun p => if p.1 == tok then (p.1, true) else p) } := by
  cases hsil : silentCheck tok with
  | true =>
    simp only [execQuery, hex, hsil, Bool.not_true, Bool.false_eq_true,
      if_false, notifyQueryDone]
    rw [if_pos (by simpa using hev)]
  | false =>
    simp only [execQuery, hex, hsil, Bool.not_false, if_true,
      notifyQueryDone]
    rw [if_pos (by simpa using hev)]

theorem submitAndWait_silent_round (env : String → Option String)
    (q : String) (vals : List String) (s : WState) (rows : List Row) (db' : DB)
    (hq : s.queue = []) (hcl : s.closed = false) (htx : s.inTransaction = true)
    (hsel : isSelectQuery q = false) (hqne : q ≠ "")
    (hfresh : EventsFresh s)
    (hex : DB.exec env q vals s.db = .ok (rows, db')) :
    submitAndWait env q vals false s
      = .ok (none, { s with
          db := db',
          selectEvents := s.selectEvents ++ [(mkToken s.uuidSupply true, true)],
          uuidSupply := s.uuidSupply + 1,
          count := s.count + 1 }) := by
  have hget : dictGet s.selectEvents (mkToken s.uuidSupply true) = none :=
    fresh_get_none hfresh le_rfl true
  unfold submitAndWait
  rw [execute_silent_spec q vals s hcl hsel]
  dsimp only
  rw [runQueue_one_state env ⟨mkToken s.uuidSupply true, some q, vals⟩ _
    (by rw [hq]; rfl)]
  unfold workerBody
  dsimp only
  rw [if_neg hqne]
  rw [execQuery_ok_state env (mkToken s.uuidSupply true) q vals
    { s with queue := [],
             selectEvents := dictSetdefault s.selectEvents
               (mkToken s.uuidSupply true) false,
             uuidSupply := s.uuidSupply + 1,
             count := s.count + 1 } rows db' hex
    (by
      dsimp only
      rw [dictSetdefault_of_none false hget, dictGet_append, hget,
        dictGet_single]
      rfl)]
  dsimp only
  simp only [htx, Bool.not_true, Bool.false_and, Bool.false_eq_true, if_false]
  rw [silentCheck_mkToken]
  simp only [Bool.not_true, Bool.false_eq_true, if_false]
  rw [dictSetdefault_of_none false hget, List.map_append,
    map_setv_id true hget]
  simp only [List.map_cons, List.map_nil, beq_self_eq_true, if_true, hq]
  rfl

theorem execute_select_spec (q : String) (vals : List String) (s : WState)
    (hcl : s.closed = false) (hsel : isSelectQuery q = true) :
    execute q vals false s = .ok
      (some (mkToken s.uuidSupply false),
       { s with uuidSupply := s.uuidSupply + 1,
                queue := s.queue ++ [⟨mkToken s.uuidSupply false, some q, vals⟩],
                selectEvents := dictSetdefault s.selectEvents
                  (mkToken s.uuidSupply false) false }) := by
  have h := execute_spec q vals false s hcl
  simpa [hsel] using h

theorem submitAndWait_check_round (env : String → Option String)
    (version : String) (s : WState)
    (hq : s.queue = []) (hcl : s.closed = false) (htx : s.inTransaction = false)
    (hres : s.results = []) (hsnap : s.db.snapshot = none)
    (hfresh : EventsFresh s) :
    submitAndWait env "SELECT version FROM _migrations WHERE version = ?"
        [version] false s
      = .ok (some (.rows ((s.db.store.migrations.filter
            (fun p => p.1 = version)).map (fun p => [p.1]))),
        { s with
            selectEvents := s.selectEvents ++ [(mkToken s.uuidSupply false, true)],
            uuidSupply := s.uuidSupply + 1,
            count := 0 }) := by
  have hget : dictGet s.selectEvents (mkToken s.uuidSupply false) = none :=
    fresh_get_none hfresh le_rfl false
  unfold submitAndWait
  rw [execute_select_spec "SELECT version FROM _migrations WHERE version = ?"
    [version] s hcl rfl]
  dsimp only
  rw [runQueue_one_state env
    ⟨mkToken s.uuidSupply false,
     some "SELECT version FROM _migrations WHERE version = ?", [version]⟩ _
    (by rw [hq]; rfl)]
  unfold workerBody
  dsimp only
  rw [if_neg (by decide :
    ¬ ("SELECT version FROM _migrations WHERE version = ?" : String) = "")]
  have hexsel : DB.exec env "SELECT version FROM _migrations WHERE version = ?"
      [version] s.db
      = .ok ((s.db.store.migrations.filter (fun p => p.1 = version)).map
          (fun p => [p.1]), s.db) := rfl
  rw [execQuery_ok_state env (mkToken s.uuidSupply false)
    "SELECT version FROM _migrations WHERE version = ?" [version]
    { s with queue := [],
             selectEvents := dictSetdefault s.selectEvents
               (mkToken s.uuidSupply false) false,
             uuidSupply := s.uuidSupply + 1,
             count := s.count + 1 }
    ((s.db.store.migrations.filter (fun p => p.1 = version)).map
      (fun p => [p.1])) s.db hexsel
    (by
      dsimp only
      rw [dictSetdefault_of_none false hget, dictGet_append, hget,
        dictGet_single]
      rfl)]
  dsimp only
  rw [silentCheck_mkToken]
  simp only [Bool.not_false, if_true, htx, Bool.true_and, List.isEmpty_nil,
    Bool.or_true, if_pos rfl]
  rw [dictSetdefault_of_none false hget, List.map_append,
    map_setv_id true hget]
  simp only [List.map_cons, List.map_nil, beq_self_eq_true, if_true]
  rw [pyCommit_of_none hsnap]
  unfold fetch_results
  dsimp only
  rw [dictGet_append, hget, dictGet_single]
  dsimp only [Option.or]
  rw [if_pos rfl]
  unfold dictPop
  rw [hres, dictSet_of_get_none _ (dictGet_nil _), List.nil_append,
    dictGet_single]
  simp only [List.filter_cons, List.filter_nil]
  rw [show (decide ¬((mkToken s.uuidSupply false, QVal.rows
      ((s.db.store.migrations.filter (fun p => p.1 = version)).map
        (fun p => [p.1]))).1 = mkToken s.uuidSupply false)) = false by simp]
  rw [hq]
  rfl

theorem begin_transaction_drain (env : String → Option String) (s : WState)
    (hq : s.queue = []) (hcl : s.closed = false) (htx : s.inTransaction = false)
    (hsnap : s.db.snapshot = none) (hfresh : EventsFresh s) :
    (runQueue env (begin_transaction s).1).1
      = { s with
          db := { s.db with snapshot := some s.db.store },
          inTransaction := true,
          selectEvents := s.selectEvents ++ [(mkToken s.uuidSupply true, true)],
          uuidSupply := s.uuidSupply + 1,
          count := s.count + 1 } := by
  have hget : dictGet s.selectEvents (mkToken s.uuidSupply true) = none :=
    fresh_get_none hfresh le_rfl true
  have hexb : DB.exec env "BEGIN TRANSACTION" [] s.db
      = .ok ([], { s.db with snapshot := some s.db.store }) := by
    unfold DB.exec
    rw [if_neg (by decide), if_neg (by decide), if_pos rfl, hsnap]
    rfl
  rw [begin_transaction_spec s htx hcl]
  dsimp only
  rw [runQueue_one_state env
    ⟨mkToken s.uuidSupply true, some "BEGIN TRANSACTION", []⟩ _
    (by dsimp only; rw [hq]; rfl)]
  unfold workerBody
  dsimp only
  rw [if_neg (by decide : ¬ ("BEGIN TRANSACTION" : String) = "")]
  rw [execQuery_ok_state env (mkToken s.uuidSupply true) "BEGIN TRANSACTION" []
    { s with inTransaction := true,
             uuidSupply := s.uuidSupply + 1,
             queue := [],
             selectEvents := dictSetdefault s.selectEvents
               (mkToken s.uuidSupply true) false,
             count := s.count + 1 }
    [] { s.db with snapshot := some s.db.store } hexb
    (by
      dsimp only
      rw [dictSetdefault_of_none false hget, dictGet_append, hget,
        dictGet_single]
      rfl)]
  dsimp only
  simp only [Bool.not_true, Bool.false_and, Bool.false_eq_true, if_false]
  rw [silentCheck_mkToken]
  simp only [Bool.not_true, Bool.false_eq_true, if_false]
  rw [dictSetdefault_of_none false hget, List.map_append,
    map_setv_id true hget]
  simp only [List.map_cons, List.map_nil, beq_self_eq_true, if_true]
  rw [hq]

theorem commit_transaction_drain (env : String → Option String) (s : WState)
    (st : Store)
    (hq : s.queue = []) (hcl : s.closed = false) (htx : s.inTransaction = true)
    (hsnap : s.db.snapshot = some st) (hfresh : EventsFresh s) :
    (commit_transaction s).2 = none
    ∧ (runQueue env (commit_transaction s).1).1
      = { s with
          db := { s.db with snapshot := none },
          inTransaction := false,
          selectEvents := s.selectEvents ++ [(mkToken s.uuidSupply true, true)],
          uuidSupply := s.uuidSupply + 1,
          count := 0 } := by
  have hget : dictGet s.selectEvents (mkToken s.uuidSupply true) = none :=
    fresh_get_none hfresh le_rfl true
  have hexc : DB.exec env "COMMIT" [] s.db
      = .ok ([], { s.db with snapshot := none }) := by
    unfold DB.exec
    rw [if_neg (by decide), if_neg (by decide), if_neg (by decide),
      if_pos rfl, hsnap]
    rfl
  constructor
  · rw [commit_transaction_spec s htx hcl]
  · rw [commit_transaction_spec s htx hcl]
    dsimp only
    rw [runQueue_one_state env
      ⟨mkToken s.uuidSupply true, some "COMMIT", []⟩ _
      (by dsimp only; rw [hq]; rfl)]
    unfold workerBody
    dsimp only
    rw [if_neg (by decide : ¬ ("COMMIT" : String) = "")]
    rw [execQuery_ok_state env (mkToken s.uuidSupply true) "COMMIT" []
      { s with inTransaction := false,
               uuidSupply := s.uuidSupply + 1,
               queue := [],
               selectEvents := dictSetdefault s.selectEvents
                 (mkToken s.uuidSupply true) false,
               count := s.count + 1 }
      [] { s.db with snapshot := none } hexc
      (by
        dsimp only
        rw [dictSetdefault_of_none false hget, dictGet_append, hget,
          dictGet_single]
        rfl)]
    dsimp only
    simp only [Bool.not_false, List.isEmpty_nil, Bool.or_true, Bool.true_and,
      if_pos rfl]
    rw [silentCheck_mkToken]
    simp only [Bool.not_true, Bool.false_eq_true, if_false]
    rw [dictSetdefault_of_none false hget, List.map_append,
      map_setv_id true hget]
    simp only [List.map_cons, List.map_nil, beq_self_eq_true, if_true]
    rw [pyCommit_of_none rfl, hq]

theorem splitStatements_ne_empty {sql q : String}
    (h : q ∈ splitStatements sql) : q ≠ "" := by
  unfold splitStatements at h
  simpa using (List.mem_filter.mp h).2

theorem eventsFresh_step {s s' : WState} (hfresh : EventsFresh s) (b : Bool)
    (hev : s'.selectEvents = s.selectEvents ++ [(mkToken s.uuidSupply b, true)])
    (hsup : s'.uuidSupply = s.uuidSupply + 1) : EventsFresh s' := by
  intro p hp
  rw [hev] at hp
  rcases List.mem_append.mp hp with h1 | h2
  · obtain ⟨j, b', hk, hj⟩ := hfresh p h1
    exact ⟨j, b', hk, by omega⟩
  · have hpe : p = (mkToken s.uuidSupply b, true) := by simpa using h2
    exact ⟨s.uuidSupply, b, by rw [hpe], by omega⟩

theorem check_round_ex (env : String → Option String) (version : String)
    (s : WState)
    (hq : s.queue = []) (hcl : s.closed = false) (htx : s.inTransaction = false)
    (hres : s.results = []) (hsnap : s.db.snapshot = none)
    (hfresh : EventsFresh s) :
    ∃ t, submitAndWait env "SELECT version FROM _migrations WHERE version = ?"
        [version] false s
      = .ok (some (.rows ((s.db.store.migrations.filter
            (fun p => p.1 = version)).map (fun p => [p.1]))), t)
      ∧ t.queue = [] ∧ t.closed = false ∧ t.inTransaction = false
      ∧ t.results = [] ∧ t.db = s.db ∧ EventsFresh t
      ∧ t.uuidSupply = s.uuidSupply + 1 := by
  refine ⟨_, submitAndWait_check_round env version s hq hcl htx hres hsnap hfresh,
    hq, hcl, htx, hres, rfl, ?_, rfl⟩
  exact eventsFresh_step hfresh false rfl rfl

theorem silent_round_ex (env : String → Option String) (q : String)
    (vals : List String) (s : WState) (rows : List Row) (db' : DB)
    (hq : s.queue = []) (hcl : s.closed = false) (htx : s.inTransaction = true)
    (hsel : isSelectQuery q = false) (hqne : q ≠ "")
    (hfresh : EventsFresh s)
    (hex : DB.exec env q vals s.db = .ok (rows, db')) :
    ∃ t, submitAndWait env q vals false s = .ok (none, t)
      ∧ t.queue = [] ∧ t.closed = false ∧ t.inTransaction = true
      ∧ t.results = s.results ∧ t.db = db' ∧ EventsFresh t
      ∧ t.uuidSupply = s.uuidSupply + 1 := by
  refine ⟨_, submitAndWait_silent_round env q vals s rows db'
    hq hcl htx hsel hqne hfresh hex,
    hq, hcl, htx, rfl, rfl, ?_, rfl⟩
  exact eventsFresh_step hfresh true rfl rfl

theorem begin_round_ex (env : String → Option String) (s : WState)
    (hq : s.queue = []) (hcl : s.closed = false) (htx : s.inTransaction = false)
    (hsnap : s.db.snapshot = none) (hfresh : EventsFresh s) :
    ∃ t, begin_transaction s = (t, none)
      ∧ ∃ u, (runQueue env t).1 = u
        ∧ u.queue = [] ∧ u.closed = false ∧ u.inTransaction = true
        ∧ u.results = s.results ∧ u.db.store = s.db.store
        ∧ u.db.snapshot = some s.db.store ∧ EventsFresh u
        ∧ u.uuidSupply = s.uuidSupply + 1 := by
  have hd := begin_transaction_drain env s hq hcl htx hsnap hfresh
  rw [begin_transaction_spec s htx hcl] at hd
  refine ⟨_, begin_transaction_spec s htx hcl,
    _, hd, hq, hcl, rfl, rfl, rfl, rfl, ?_, rfl⟩
  exact eventsFresh_step hfresh true rfl rfl

theorem commit_round_ex (env : String → Option String) (s : WState)
    (st : Store)
    (hq : s.queue = []) (hcl : s.closed = false) (htx : s.inTransaction = true)
    (hsnap : s.db.snapshot = some st) (hfresh : EventsFresh s) :
    ∃ t, commit_transaction s = (t, none)
      ∧ ∃ u, (runQueue env t).1 = u
        ∧ u.queue = [] ∧ u.closed = false ∧ u.inTransaction = false
        ∧ u.results = s.results ∧ u.db.store = s.db.store
        ∧ u.db.snapshot = none ∧ EventsFresh u
        ∧ u.uuidSupply = s.uuidSupply + 1 := by
  obtain ⟨h2, hd⟩ := commit_transaction_drain env s st hq hcl htx hsnap hfresh
  have hspec := commit_transaction_spec s htx hcl
  rw [hspec] at hd
  refine ⟨_, hspec, _, hd, hq, hcl, rfl, rfl, rfl, rfl, ?_, rfl⟩
  exact eventsFresh_step hfresh true rfl rfl

theorem runMigrationStatements_ok (env : String → Option String) :
    ∀ (stmts : List String) (s : WState),
      (∀ q ∈ stmts, UserStmtOk env q ∧ q ≠ "") →
      s.queue = [] → s.closed = false → s.inTransaction = true →
      EventsFresh s →
      ∃ s', runMigrationStatements env stmts s = (s', none)
        ∧ s'.queue = [] ∧ s'.closed = false ∧ s'.inTransaction = true
        ∧ EventsFresh s'
        ∧ s'.results = s.results
        ∧ s'.db.store.migrations = s.db.store.migrations
        ∧ s'.db.snapshot = s.db.snapshot
        ∧ s.uuidSupply ≤ s'.uuidSupply := by
  intro stmts
  induction stmts with
  | nil =>
    intro s _ hq hcl htx hfresh
    exact ⟨s, rfl, hq, hcl, htx, hfresh, rfl, rfl, rfl, le_rfl⟩
  | cons q rest ih =>
    intro s hall hq hcl htx hfresh
    obtain ⟨⟨hu, he, hsel⟩, hqne⟩ := hall q (List.mem_cons_self q rest)
    have hexu : DB.exec env q [] s.db = .ok ([], userDB s.db q) :=
      DB.exec_user [] s.db hu he
    have hstep := submitAndWait_silent_round env q [] s [] (userDB s.db q)
      hq hcl htx hsel hqne hfresh hexu
    unfold runMigrationStatements
    rw [hstep]
    dsimp only
    obtain ⟨s', hrun, hq', hcl', htx', hfresh', hres', hmig', hsnap', hsup'⟩ :=
      ih { s with
            db := userDB s.db q,
            selectEvents := s.selectEvents ++ [(mkToken s.uuidSupply true, true)],
            uuidSupply := s.uuidSupply + 1,
            count := s.count + 1 }
        (fun q' hq' => hall q' (List.mem_cons_of_mem _ hq'))
        hq hcl htx (eventsFresh_step hfresh true rfl rfl)
    refine ⟨s', hrun, hq', hcl', htx', hfresh', hres', ?_, ?_, ?_⟩
    · exact hmig'
    · exact hsnap'
    · simp only at hsup'
      omega

theorem apply_migration_dup (env : String → Option String)
    (version name up_sql : String) (s : WState)
    (hq : s.queue = []) (hcl : s.closed = false) (htx : s.inTransaction = false)
    (hres : s.results = []) (hsnap : s.db.snapshot = none)
    (hfresh : EventsFresh s)
    (hver : version ∈ s.db.store.migrations.map (fun p => p.1)) :
    ∃ t, apply_migration env version name up_sql s = (t, .ok false)
      ∧ t.queue = [] ∧ t.closed = false ∧ t.inTransaction = false
      ∧ t.results = [] ∧ t.db = s.db ∧ EventsFresh t := by
  have hne : (s.db.store.migrations.filter (fun p => p.1 = version)) ≠ [] := by
    obtain ⟨p, hp, hpe⟩ := List.mem_map.mp hver
    exact List.ne_nil_of_mem (List.mem_filter.mpr ⟨hp, by simpa using hpe⟩)
  have hempty : ((s.db.store.migrations.filter
      (fun p => p.1 = version)).map (fun p => [p.1])).isEmpty = false := by
    simpa using hne
  obtain ⟨t, heq, htq, htc, htt, htr, htd, htf, hts⟩ :=
    check_round_ex env version s hq hcl htx hres hsnap hfresh
  unfold apply_migration
  rw [heq]
  dsimp only
  unfold appliedCheck
  dsimp only
  rw [hempty]
  exact ⟨t, rfl, htq, htc, htt, htr, htd, htf⟩

theorem apply_migration_fresh (env : String → Option String)
    (version name up_sql : String) (s : WState)
    (hq : s.queue = []) (hcl : s.closed = false) (htx : s.inTransaction = false)
    (hres : s.results = []) (hsnap : s.db.snapshot = none)
    (hfresh : EventsFresh s)
    (hver : version ∉ s.db.store.migrations.map (fun p => p.1))
    (hstmts : ∀ q ∈ splitStatements up_sql, UserStmtOk env q) :
    ∃ t, apply_migration env version name up_sql s = (t, .ok true)
      ∧ t.queue = [] ∧ t.closed = false ∧ t.inTransaction = false
      ∧ t.results = [] ∧ t.db.snapshot = none ∧ EventsFresh t
      ∧ t.db.store.migrations = s.db.store.migrations ++ [(version, name)] := by
  have hfil : s.db.store.migrations.filter (fun p => p.1 = version) = [] := by
    rw [List.filter_eq_nil_iff]
    intro p hp
    simp only [decide_eq_true_eq]
    intro hpe
    exact hver (List.mem_map.mpr ⟨p, hp, hpe⟩)
  -- round 1: the ledger check comes back empty
  obtain ⟨t1, h1, h1q, h1c, h1t, h1r, h1d, h1f, h1s⟩ :=
    check_round_ex env version s hq hcl htx hres hsnap hfresh
  -- round 2: BEGIN TRANSACTION
  obtain ⟨t2, h2, u2, hu2, u2q, u2c, u2t, u2r, u2st, u2sn, u2f, u2s⟩ :=
    begin_round_ex env t1 h1q h1c h1t (by rw [h1d]; exact hsnap) h1f
  -- round 3: the split statements, all silent successful user statements
  obtain ⟨s3, hrun, s3q, s3c, s3t, s3f, s3r, s3m, s3sn, s3s⟩ :=
    runMigrationStatements_ok env (splitStatements up_sql) u2
      (fun q hmem => ⟨hstmts q hmem, splitStatements_ne_empty hmem⟩)
      u2q u2c u2t u2f
  -- round 4: the ledger INSERT
  have hcont : (s3.db.store.migrations.map (fun p => p.1)).contains version
      = false := by
    rw [s3m, u2st]
    rw [h1d]
    simpa using hver
  have hexi : DB.exec env "INSERT INTO _migrations (version, name) VALUES (?, ?)"
      [version, name] s3.db
      = .ok ([], { s3.db with store := { s3.db.store with
          migrations := s3.db.store.migrations ++ [(version, name)] } }) := by
    unfold DB.exec
    rw [if_neg (by decide), if_pos rfl]
    dsimp only
    rw [hcont]
    rfl
  obtain ⟨t4, h4, h4q, h4c, h4t, h4r, h4d, h4f, h4s⟩ :=
    silent_round_ex env "INSERT INTO _migrations (version, name) VALUES (?, ?)"
      [version, name] s3 []
      { s3.db with store := { s3.db.store with
          migrations := s3.db.store.migrations ++ [(version, name)] } }
      s3q s3c s3t rfl (by decide) s3f hexi
  -- round 5: COMMIT
  obtain ⟨t5, h5, u5, hu5, u5q, u5c, u5t, u5r, u5st, u5sn, u5f, u5s⟩ :=
    commit_round_ex env t4 s.db.store h4q h4c h4t
      (by rw [h4d]; show s3.db.snapshot = some s.db.store
          rw [s3sn, u2sn, h1d]) h4f
  refine ⟨u5, ?_, u5q, u5c, u5t, ?_, u5sn, u5f, ?_⟩
  · unfold apply_migration
    rw [h1]
    dsimp only
    rw [hfil, List.map_nil]
    unfold appliedCheck
    dsimp only
    rw [h2]
    dsimp only
    rw [hu2, hrun]
    dsimp only
    rw [h4]
    dsimp only
    rw [h5]
    dsimp only
    rw [hu5]
    rfl
  · rw [u5r, h4r, s3r, u2r, h1r]
  · rw [u5st, h4d]
    show s3.db.store.migrations ++ [(version, name)] = _
    rw [s3m, u2st, h1d]

/-! ### Claim theorems -/

/-- Claim C10: calling `fetch_results` with the no-token value (`None`) — the
value `execute` returns for a silent submission — returns immediately with
no result: it does not block, does not raise, and leaves the result map and
completion-signal map unchanged (the state is returned untouched). -/
theorem fetch_results_none_returns_immediately (s : WState) :
    fetch_results none s = .returned none s := rfl

/-- Claim C6 (failing input): the identifier validator accepts the string
`"users\n"` and returns it unchanged, although that string does not match
the production "starts with a letter or underscore, followed by letters,
digits, or underscores only" — the Python `$` anchor in `re.match` also matches just
before a single trailing newline, so the claimed if-and-only-if
characterization fails on the code. -/
theorem validateIdentifier_accepts_trailing_newline :
    validateIdentifier "users\n" = .ok "users\n"
      ∧ specIdentProduction "users\n" = false :=
  ⟨rfl, rfl⟩

/-- Claim C5: a `fetch_results` call with a token that has no completion event
(never issued) returns "no result" immediately without blocking; so does a
call for a token whose event is set but whose value is absent (already
consumed); and after a fetch that returned the value, a second fetch of the
same token returns "no result". -/
theorem fetch_results_at_most_once (s : WState) (tok : String) :
    (dictGet s.selectEvents tok = none →
      fetch_results (some tok) s = .returned none s)
    ∧ (dictGet s.selectEvents tok = some true → dictGet s.results tok = none →
      fetch_results (some tok) s = .returned none s)
    ∧ (∀ v s', dictGet s.selectEvents tok = some true →
      fetch_results (some tok) s = .returned v s' →
      fetch_results (some tok) s' = .returned none s') := by
  refine ⟨?_, ?_, ?_⟩
  · intro h
    simp [fetch_results, h]
  · intro h1 h2
    simp only [fetch_results, h1, if_pos rfl, dictPop, h2]
    rw [filter_ne_of_get_none h2]
    simp
  · intro v s' h1 hf
    simp only [fetch_results, h1, if_pos rfl, dictPop] at hf
    cases hf
    simp only [fetch_results, h1, if_pos rfl, dictPop,
      dictGet_filter_ne_self]
    rw [List.filter_filter]
    simp

/-- Witness for C5 at a concrete state: fetching a token that was never
issued returns "no result" with the state unchanged. -/
theorem fetch_results_at_most_once_witness :
    fetch_results (some "t") cleanState = .returned none cleanState :=
  (fetch_results_at_most_once cleanState "t").1 rfl

/-- Claim C4 (counterexample): a silent request whose statement fails does store
a value in the result map — `_handle_query_error` writes the captured error
without checking the silent suffix — contradicting "stores no value …
neither rows nor a captured error". -/
theorem silent_error_stored_counterexample :
    silentCheck (mkToken 0 true) = true
    ∧ (execQuery (fun _ => some "no such table: t") (mkToken 0 true)
        "UPDATE t SET x = 1" []
        { cleanState with selectEvents := [(mkToken 0 true, false)] }).1.results
      = [(mkToken 0 true, .err "no such table: t")]
    ∧ dictGet (execQuery (fun _ => some "no such table: t") (mkToken 0 true)
        "UPDATE t SET x = 1" []
        { cleanState with selectEvents := [(mkToken 0 true, false)] }).1.selectEvents
        (mkToken 0 true)
      = some true :=
  ⟨rfl, rfl, rfl⟩

/-- Claim C4 (amended): executing a silent request stores no rows on success; but
when the statement fails, the captured error is stored in the result map
under the silent token; in both cases the completion signal (when it
exists) is set, so synchronous callers can wait on it. -/
theorem silent_request_result_storage (env : String → Option String)
    (s : WState) (query : String) (vals : List String) (token : String)
    (hsil : silentCheck token = true) :
    (∀ rows db', DB.exec env query vals s.db = .ok (rows, db') →
      (execQuery env token query vals s).1.results = s.results)
    ∧ (∀ e, DB.exec env query vals s.db = .error e →
      dictGet (execQuery env token query vals s).1.results token
        = some (.err e))
    ∧ (∀ b, dictGet s.selectEvents token = some b →
      dictGet (execQuery env token query vals s).1.selectEvents token
        = some true) := by
  refine ⟨?_, ?_, ?_⟩
  · intro rows db' h
    simp only [execQuery, h, hsil]
    simp only [Bool.not_true, Bool.false_eq_true, if_false]
    unfold notifyQueryDone
    split <;> rfl
  · intro e h
    simp only [execQuery, h, handleQueryError]
    unfold notifyQueryDone
    split <;> simp [dictGet_dictSet_self]
  · intro b hb
    cases hx : DB.exec env query vals s.db with
    | ok res =>
      obtain ⟨rows, db'⟩ := res
      simp only [execQuery, hx, hsil]
      simp only [Bool.not_true, Bool.false_eq_true, if_false]
      unfold notifyQueryDone
      split
      · simp only [dictGet_map_setv, dictGet_map_setv_eq, hb, Option.map_some']
      · rename_i hne
        simp [hb] at hne
    | error e =>
      simp only [execQuery, hx, handleQueryError]
      unfold notifyQueryDone
      split
      · simp only [dictGet_map_setv, dictGet_map_setv_eq, hb, Option.map_some']
      · rename_i hne
        simp [hb] at hne

/-- Witness for C4 (amended) at a concrete silent token and state. -/
theorem silent_request_result_storage_witness :
    dictGet (execQuery (fun _ => some "boom") (mkToken 0 true) "X" []
      { cleanState with selectEvents := [(mkToken 0 true, false)] }).1.results
      (mkToken 0 true) = some (.err "boom") :=
  (silent_request_result_storage (fun _ => some "boom")
    { cleanState with selectEvents := [(mkToken 0 true, false)] } "X" []
    (mkToken 0 true) (by rfl)).2.1 "boom" rfl

/-- Claim C2 (counterexample): `commit_transaction` on a worker in a transaction
returns normally with the in-transaction flag already cleared while the
`COMMIT` statement is still sitting in the request queue and its completion
event is not set — it did not wait for the completion of the statement. -/
theorem commit_transaction_returns_before_commit_executes :
    (commit_transaction { cleanState with inTransaction := true }).2 = none
    ∧ (commit_transaction { cleanState with inTransaction := true }).1.inTransaction = false
    ∧ (commit_transaction { cleanState with inTransaction := true }).1.queue
      = [⟨mkToken 0 true, some "COMMIT", []⟩]
    ∧ dictGet (commit_transaction { cleanState with inTransaction := true }).1.selectEvents
        (mkToken 0 true)
      = some false :=
  ⟨rfl, rfl, rfl, rfl⟩

/-- Claim C3 (failing schedule): starting from a fresh worker, let the producer
enqueue a request (`executeEnqueue`, the part of `execute` up to
`self._sql_queue.put`), let the worker thread run next, and only then let
the producer run `_notify_query_begin`.  The worker consumes and completes
the request while no completion event exists (the signal is silently
dropped by `_notify_query_done`), the event then created is permanently
unset, and the `fetch_results` call of the waiting caller blocks forever even though the
result value is present. -/
theorem execute_event_race :
    ((runQueue envOk (executeEnqueue "SELECT 1" [] false cleanState).2).1.selectEvents
      = [])
    ∧ dictGet (runQueue envOk (executeEnqueue "SELECT 1" [] false cleanState).2).1.results
        (mkToken 0 false)
      = some (.rows [])
    ∧ dictGet (notifyQueryBegin (mkToken 0 false)
        (runQueue envOk (executeEnqueue "SELECT 1" [] false cleanState).2).1).selectEvents
        (mkToken 0 false)
      = some false
    ∧ fetch_results (some (mkToken 0 false))
        (notifyQueryBegin (mkToken 0 false)
          (runQueue envOk (executeEnqueue "SELECT 1" [] false cleanState).2).1)
      = .blocked
    ∧ (runQueue envOk (notifyQueryBegin (mkToken 0 false)
        (runQueue envOk (executeEnqueue "SELECT 1" [] false cleanState).2).1)).1.selectEvents
      = (notifyQueryBegin (mkToken 0 false)
        (runQueue envOk (executeEnqueue "SELECT 1" [] false cleanState).2).1).selectEvents :=
  ⟨rfl, rfl, rfl, rfl, rfl⟩

/-- Claim C2 (amended): `commit_transaction` and `rollback_transaction` emit
their control statement through the normal request queue but return — and
release the exclusion lock, clearing the in-transaction flag — immediately
after enqueueing, without waiting for completion of the statement (its
completion event is still unset at return).  Statements submitted between
`begin` and `commit`/`rollback` still execute within the same transaction
boundary because the queue is FIFO: the single worker hands statements to
the connection in exactly queue order, so everything enqueued after `BEGIN
TRANSACTION` and before `COMMIT`/`ROLLBACK` executes between them. -/
theorem commit_rollback_enqueue_and_fifo :
    (∀ s : WState, s.inTransaction = true → s.closed = false →
      (commit_transaction s).2 = none
      ∧ (commit_transaction s).1.inTransaction = false
      ∧ (commit_transaction s).1.queue
          = s.queue ++ [⟨mkToken s.uuidSupply true, some "COMMIT", []⟩]
      ∧ (dictGet s.selectEvents (mkToken s.uuidSupply true) = none →
          dictGet (commit_transaction s).1.selectEvents
            (mkToken s.uuidSupply true) = some false))
    ∧ (∀ s : WState, s.inTransaction = true → s.closed = false →
      (rollback_transaction s).2 = none
      ∧ (rollback_transaction s).1.inTransaction = false
      ∧ (rollback_transaction s).1.queue
          = s.queue ++ [⟨mkToken s.uuidSupply true, some "ROLLBACK", []⟩]
      ∧ (dictGet s.selectEvents (mkToken s.uuidSupply true) = none →
          dictGet (rollback_transaction s).1.selectEvents
            (mkToken s.uuidSupply true) = some false))
    ∧ (∀ (env : String → Option String) (s : WState),
        execOrder (runQueue env s).2 = queuedStatements s) := by
  refine ⟨?_, ?_, fun env s => runQueue_execOrder env s⟩
  · intro s h hcl
    rw [commit_transaction_spec s h hcl]
    refine ⟨rfl, rfl, rfl, ?_⟩
    intro hget
    simp only [dictSetdefault_of_none false hget, dictGet_append, hget,
      dictGet_single]
    rfl
  · intro s h hcl
    rw [rollback_transaction_spec s h hcl]
    refine ⟨rfl, rfl, rfl, ?_⟩
    intro hget
    simp only [dictSetdefault_of_none false hget, dictGet_append, hget,
      dictGet_single]
    rfl

/-- Witness for C2 (amended) at a concrete state: after
`commit_transaction` the `COMMIT` request is queued, unexecuted, with its
completion event unset. -/
theorem commit_rollback_enqueue_and_fifo_witness :
    (commit_transaction { cleanState with inTransaction := true }).1.queue
      = [⟨mkToken 0 true, some "COMMIT", []⟩]
    ∧ dictGet (commit_transaction { cleanState with inTransaction := true }).1.selectEvents
        (mkToken 0 true) = some false := by
  have h := commit_rollback_enqueue_and_fifo.1
    { cleanState with inTransaction := true } rfl rfl
  exact ⟨h.2.2.1, h.2.2.2 rfl⟩

/-- Claim C9: on the worker thread, hooks are dispatched strictly after the
statement executes and strictly before its result is stored and completion
is signaled (the event trace is exactly `executed`, then the hook calls,
then `resultStored`, then `signaled`); a raising hook is caught (its trace
entry is just marked failed) and neither result storage, completion
signaling, nor the processing of the remaining queued statements is
prevented (the worker still executes exactly the queued statements in FIFO
order, whatever the hooks do). -/
theorem hooks_after_execute_before_publish (env : String → Option String)
    (s : WState) (query : String) (vals : List String) (token : String)
    (b : Bool) (rows : List Row) (db' : DB)
    (hsil : silentCheck token = false)
    (hev : dictGet s.selectEvents token = some b)
    (hex : DB.exec env query vals s.db = .ok (rows, db')) :
    (execQuery env token query vals s).2
      = Ev.executed query :: (triggerHooks s.queryHooks query vals
          ++ [Ev.resultStored token, Ev.signaled token])
    ∧ (∀ e ∈ triggerHooks s.queryHooks query vals,
        ∃ nm ok, e = Ev.hookCalled nm ok)
    ∧ dictGet (execQuery env token query vals s).1.results token
        = some (.rows rows)
    ∧ dictGet (execQuery env token query vals s).1.selectEvents token
        = some true
    ∧ (∀ s' : WState, execOrder (runQueue env s').2 = queuedStatements s') := by
  have hsome : (dictGet s.selectEvents token).isSome = true := by
    rw [hev]; rfl
  refine ⟨?_, ?_, ?_, ?_, fun s' => runQueue_execOrder env s'⟩
  · simp only [execQuery, hex, hsil, Bool.not_false, if_true,
      notifyQueryDone]
    rw [if_pos (by simpa using hsome)]
    simp
  · intro e he
    simp only [triggerHooks, List.mem_map] at he
    obtain ⟨hcb, _, hcbe⟩ := he
    exact ⟨hcb.name, _, hcbe.symm⟩
  · simp only [execQuery, hex, hsil, Bool.not_false, if_true,
      notifyQueryDone]
    rw [if_pos (by simpa using hsome)]
    simp [dictGet_dictSet_self]
  · simp only [execQuery, hex, hsil, Bool.not_false, if_true,
      notifyQueryDone]
    rw [if_pos (by simpa using hsome)]
    simp only [dictGet_map_setv, dictGet_map_setv_eq, hev, Option.map_some']

/-- Witness for C9 at a concrete state with one registered hook that raises
on every invocation: the trace still runs through result storage and
completion signaling. -/
theorem hooks_after_execute_before_publish_witness :
    (execQuery envOk (mkToken 0 false) "SELECT 1" []
      { cleanState with
          selectEvents := [(mkToken 0 false, false)],
          queryHooks := [("on_query", [⟨"h", fun _ _ => true⟩])] }).2
      = Ev.executed "SELECT 1" ::
        (triggerHooks [("on_query", [⟨"h", fun _ _ => true⟩])] "SELECT 1" []
          ++ [Ev.resultStored (mkToken 0 false),
              Ev.signaled (mkToken 0 false)]) :=
  (hooks_after_execute_before_publish envOk
    { cleanState with
        selectEvents := [(mkToken 0 false, false)],
        queryHooks := [("on_query", [⟨"h", fun _ _ => true⟩])] }
    "SELECT 1" [] (mkToken 0 false) false []
    { store := { migrations := [], applied := ["SELECT 1"] }, snapshot := none }
    (by decide) rfl rfl).1

/-- Claim C8: the scoped-transaction helper (`TransactionContext`, obtained via
`worker.transaction()`) begins a transaction on entry; on normal exit of
the body it commits (the in-transaction flag is released and `COMMIT` is
submitted), and on abnormal exit it rolls back (`ROLLBACK` submitted, flag
released) and re-raises the original exception, provided the body left the
transaction it was handed open and the worker accepting requests. -/
theorem transactionContext_commit_or_rollback (s : WState)
    (body : WState → WState × Option String)
    (hTx : s.inTransaction = false) (hCl : s.closed = false)
    (hBodyTx : (body (begin_transaction s).1).1.inTransaction = true)
    (hBodyCl : (body (begin_transaction s).1).1.closed = false) :
    ((begin_transaction s).2 = none
      ∧ (begin_transaction s).1.inTransaction = true
      ∧ (begin_transaction s).1.queue
          = s.queue ++ [⟨mkToken s.uuidSupply true, some "BEGIN TRANSACTION", []⟩])
    ∧ ((body (begin_transaction s).1).2 = none →
      (transactionContext body s).2 = none
      ∧ (transactionContext body s).1.inTransaction = false
      ∧ (transactionContext body s).1.queue
          = (body (begin_transaction s).1).1.queue
            ++ [⟨mkToken (body (begin_transaction s).1).1.uuidSupply true,
                 some "COMMIT", []⟩])
    ∧ (∀ e, (body (begin_transaction s).1).2 = some e →
      (transactionContext body s).2 = some e
      ∧ (transactionContext body s).1.inTransaction = false
      ∧ (transactionContext body s).1.queue
          = (body (begin_transaction s).1).1.queue
            ++ [⟨mkToken (body (begin_transaction s).1).1.uuidSupply true,
                 some "ROLLBACK", []⟩]) := by
  have hbegin := begin_transaction_spec s hTx hCl
  refine ⟨⟨by rw [hbegin], by rw [hbegin], by rw [hbegin]⟩, ?_, ?_⟩
  · intro hnone
    have ht : transactionContext body s
        = commit_transaction (body (begin_transaction s).1).1 := by
      unfold transactionContext
      rw [hbegin]
      dsimp only
      rw [show body { s with
             inTransaction := true,
             uuidSupply := s.uuidSupply + 1,
             queue := s.queue ++
               [⟨mkToken s.uuidSupply true, some "BEGIN TRANSACTION", []⟩],
             selectEvents := dictSetdefault s.selectEvents
               (mkToken s.uuidSupply true) false }
          = ((body (begin_transaction s).1).1, (body (begin_transaction s).1).2)
        from by rw [hbegin]]
      rw [hnone]
    rw [ht, commit_transaction_spec _ hBodyTx hBodyCl]
    exact ⟨rfl, rfl, rfl⟩
  · intro e he
    have ht : transactionContext body s
        = ((rollback_transaction (body (begin_transaction s).1).1).1, some e) := by
      unfold transactionContext
      rw [hbegin]
      dsimp only
      rw [show body { s with
             inTransaction := true,
             uuidSupply := s.uuidSupply + 1,
             queue := s.queue ++
               [⟨mkToken s.uuidSupply true, some "BEGIN TRANSACTION", []⟩],
             selectEvents := dictSetdefault s.selectEvents
               (mkToken s.uuidSupply true) false }
          = ((body (begin_transaction s).1).1, (body (begin_transaction s).1).2)
        from by rw [hbegin]]
      rw [he]
      dsimp only
      rw [rollback_transaction_spec _ hBodyTx hBodyCl]
    rw [ht, rollback_transaction_spec _ hBodyTx hBodyCl]
    exact ⟨rfl, rfl, rfl⟩

/-- Witness for C8 at a concrete state and body: a body that raises gets
its exception re-raised, with the transaction rolled back. -/
theorem transactionContext_commit_or_rollback_witness :
    (transactionContext (fun t => (t, some "boom")) cleanState).2 = some "boom"
    ∧ (transactionContext (fun t => (t, some "boom")) cleanState).1.inTransaction
      = false :=
  have h := (transactionContext_commit_or_rollback cleanState
    (fun t => (t, some "boom")) rfl rfl rfl rfl).2.2 "boom" rfl
  ⟨h.1, h.2.1⟩

/-- Claim C7: `apply_migration(version, name, up_sql)` on a version not yet in
the migration ledger returns `True` and records the version; a subsequent
call with the same version returns `False` without raising an error and
leaves the database untouched, so re-applying a known version is a no-op.
(Stated for an idle worker and a migration script whose statements are
ordinary successful non-select statements.) -/
theorem apply_migration_idempotent (env : String → Option String)
    (version name up_sql : String) (s : WState)
    (hci : CleanIdle s)
    (hver : version ∉ s.db.store.migrations.map (fun p => p.1))
    (hstmts : ∀ q ∈ splitStatements up_sql, UserStmtOk env q) :
    ∃ t, apply_migration env version name up_sql s = (t, .ok true)
      ∧ t.db.store.migrations = s.db.store.migrations ++ [(version, name)]
      ∧ ∃ t2, apply_migration env version name up_sql t = (t2, .ok false)
        ∧ t2.db = t.db := by
  obtain ⟨hq, hcl, htx, hres, hsnap, hfresh⟩ := hci
  obtain ⟨t, heq, htq, htc, htt, htr, htsn, htf, htm⟩ :=
    apply_migration_fresh env version name up_sql s hq hcl htx hres hsnap
      hfresh hver hstmts
  have hver2 : version ∈ t.db.store.migrations.map (fun p => p.1) := by
    rw [htm]
    simp
  obtain ⟨t2, heq2, _, _, _, _, ht2d, _⟩ :=
    apply_migration_dup env version name up_sql t htq htc htt htr htsn htf hver2
  exact ⟨t, heq, htm, t2, heq2, ht2d⟩

/-- Witness for C7 on the example used by the specification: applying
`CREATE TABLE t(id INTEGER)` as version "001" to a fresh worker succeeds and
records the version; the second application returns `False` with the
database unchanged. -/
theorem apply_migration_idempotent_witness :
    ∃ t, apply_migration envOk "001" "x" "CREATE TABLE t(id INTEGER)" cleanState
        = (t, .ok true)
      ∧ t.db.store.migrations = [("001", "x")]
      ∧ ∃ t2, apply_migration envOk "001" "x" "CREATE TABLE t(id INTEGER)" t
          = (t2, .ok false) ∧ t2.db = t.db := by
  have h := apply_migration_idempotent envOk "001" "x"
    "CREATE TABLE t(id INTEGER)" cleanState
    ⟨rfl, rfl, rfl, rfl, rfl, fun p hp => absurd hp (List.not_mem_nil p)⟩
    (by simp [cleanState])
    (by
      intro q hq
      rw [show splitStatements "CREATE TABLE t(id INTEGER)"
          = ["CREATE TABLE t(id INTEGER)"] from rfl] at hq
      simp only [List.mem_singleton] at hq
      subst hq
      exact ⟨by decide, rfl, by decide⟩)
  simpa using h

/-- Claim C1 (failing input): applying a migration whose SQL fails is not rolled
back.  With `up_sql = "BROKEN STATEMENT"` failing in the engine, the
statement error is captured silently as a result value (visible in the
result map under the silent token), the ledger insert and `COMMIT` still
run, `apply_migration` returns `True`, and the version is recorded in the
ledger — the claimed "roll back the whole batch on any failure, leaving no
ledger row" does not happen, because statement errors are captured by the
worker instead of raising inside the try block of `apply_migration`. -/
theorem apply_migration_commits_despite_statement_failure :
    ((apply_migration
        (fun q => if q = "BROKEN STATEMENT" then some "syntax error" else none)
        "001" "m1" "BROKEN STATEMENT" cleanState).2 = .ok true)
    ∧ (apply_migration
        (fun q => if q = "BROKEN STATEMENT" then some "syntax error" else none)
        "001" "m1" "BROKEN STATEMENT" cleanState).1.db.store.migrations
      = [("001", "m1")]
    ∧ dictGet (apply_migration
        (fun q => if q = "BROKEN STATEMENT" then some "syntax error" else none)
        "001" "m1" "BROKEN STATEMENT" cleanState).1.results (mkToken 2 true)
      = some (.err "syntax error")
    ∧ (apply_migration
        (fun q => if q = "BROKEN STATEMENT" then some "syntax error" else none)
        "001" "m1" "BROKEN STATEMENT" cleanState).1.db.snapshot = none :=
  ⟨rfl, rfl, rfl, rfl⟩

end SqliteWorker
